import Mathlib

/-!
Verification of the `farrow` BFF code generator (`src/packages/bff/src/codegen.ts`).

The TypeScript source is shallowly embedded below.  The collaborating modules
`./formater` and `./toJSON` are not part of the sources, so the handful of
helpers the generator imports from them (`getTypeName`, `isInlineType`, the
shapes of `FormatType` / `FormatEntries` / `FormatApi`) are modelled from the
specification, as marked on each definition.  The external pretty-printer
collaborator is out of scope per the spec; `codegen` below returns the
assembled source string that the TypeScript code hands to it.

TypeScript recursion is unbounded; every recursive routine here takes an
explicit `fuel : Nat` bounding the call depth.  A result of `none` models a
computation that exhausts every finite call depth (in TypeScript: a stack
overflow), `some (Except.error e)` models a thrown error, and
`some (Except.ok s)` a normal return of the string `s`.
-/

/-- Modelled from the spec: a `Literal` descriptor's payload is a string,
a (numeric) number, or a boolean.  Numbers are modelled as integers. -/
inductive LiteralValue where
  | str (s : String)
  | num (n : Int)
  | boolean (b : Bool)
deriving DecidableEq

/-- Modelled from the spec: a field of an Object/Struct descriptor carries the
referenced type id plus optional description / deprecation notes. -/
structure FieldInfo where
  typeId : Nat
  description : Option String := none
  deprecated : Option String := none
deriving DecidableEq

/-- Modelled from the spec: the tagged variants of a Type Descriptor
(`FormatType.type` in the TypeScript source).  `str` is the tag `String`,
`id` is the tag `ID`. -/
inductive TypeKind where
  | any
  | json
  | str
  | boolean
  | float
  | id
  | int
  | number
  | unknown
  | record (itemTypeId : Nat)
  | literal (value : LiteralValue)
  | nullable (itemTypeId : Nat)
  | list (itemTypeId : Nat)
  | union (itemTypeIds : List Nat)
  | intersect (itemTypeIds : List Nat)
  | object (fields : List (String × FieldInfo))
  | struct (fields : List (String × FieldInfo))
deriving DecidableEq

/-- Modelled from the spec: a Type Descriptor is a kind plus an optional
display name. -/
structure FormatType where
  kind : TypeKind
  name : Option String := none
deriving DecidableEq

/-- The Type Registry: an ordered mapping from type id to descriptor
(`FormatTypes` in the source); iteration order is the list order. -/
abbrev FormatTypes := List (Nat × FormatType)

/-- Registry lookup, `types[typeId]` in the source; `none` when the id is
absent (the spec's unresolved-reference failure). -/
def lookupType (types : FormatTypes) (typeId : Nat) : Option FormatType :=
  match types with
  | [] => none
  | (i, t) :: rest => if i == typeId then some t else lookupType rest typeId

/-- Modelled from the spec: `getTypeName` (imported from `./formater`) returns
the descriptor's display name; a missing or empty name (JavaScript-falsy)
counts as absent. -/
def getTypeName (t : FormatType) : Option String :=
  match t.name with
  | some s => if s == "" then none else some s
  | none => none

/-- Modelled from the spec: `isInlineType` (imported from `./formater`) holds
for every descriptor kind except Object/Struct, which are the only kinds
emitted as standalone declarations. -/
def isInlineType (t : FormatType) : Bool :=
  match t.kind with
  | TypeKind.object _ => false
  | TypeKind.struct _ => false
  | _ => true

/-- Mirrors `getTypeNameById`: the synthetic name is the fixed text `Type`
followed by the id. -/
def getTypeNameById (typeId : Nat) : String :=
  "Type" ++ toString typeId

/-- JavaScript truthiness of an optional string option (`!options.description`):
present and non-empty. -/
def presentOpt (o : Option String) : Bool :=
  match o with
  | none => false
  | some s => !(s == "")

/-- Mirrors `attachComment`: prepends a doc-comment block when a description or
deprecation note is present (the `@depcreated` typo is the source's). -/
def attachComment (result : String) (description deprecated : Option String) : String :=
  if !(presentOpt deprecated) && !(presentOpt description) then
    result
  else
    let list := List.filter (fun s => !(s == ""))
      [ (if presentOpt description then "* @remarks " ++ description.getD "" else ""),
        (if presentOpt deprecated then "* @depcreated " ++ deprecated.getD "" else "") ]
    "/**\n" ++ String.intercalate "\n" list ++ "\n*/\n" ++ result

/-- Mirrors the `Literal` rendering: string values are wrapped in double
quotes, numbers and booleans are printed bare. -/
def renderLiteral (v : LiteralValue) : String :=
  match v with
  | LiteralValue.str s => "\"" ++ s ++ "\""
  | LiteralValue.num n => toString n
  | LiteralValue.boolean b => if b then "true" else "false"

/-- Mirrors `Array.prototype.join`: the elements separated by `sep`. -/
def joinSep (sep : String) : List String → String
  | [] => ""
  | [s] => s
  | s :: rest => s ++ sep ++ joinSep sep rest

/-- Mirrors the `.map(typeId => getFieldType(typeId, types))` traversals of the
`Union` and `Intersect` arms; a thrown error aborts the whole traversal.  The
callback `f` is the one-id resolver. -/
def resolveMembers (f : Nat → Option (Except String String)) :
    List Nat → Option (Except String (List String))
  | [] => some (Except.ok [])
  | i :: rest =>
    match f i with
    | none => none
    | some (Except.error e) => some (Except.error e)
    | some (Except.ok s) =>
      match resolveMembers f rest with
      | none => none
      | some (Except.error e) => some (Except.error e)
      | some (Except.ok ss) => some (Except.ok (s :: ss))

/-- Mirrors `getFieldType`.  The first argument is the call-depth fuel; the
`record` arm recurses on `typeId` itself — exactly as the source does on line
70 — rather than on the record's `itemTypeId`. -/
def getFieldType : Nat → Nat → FormatTypes → Option (Except String String)
  | 0, _, _ => none
  | fuel + 1, typeId, types =>
    match lookupType types typeId with
    | none => some (Except.error ("Unresolved type id: " ++ toString typeId))
    | some fieldType =>
      match getTypeName fieldType with
      | some typeName => some (Except.ok typeName)
      | none =>
        if isInlineType fieldType = false then
          some (Except.ok (getTypeNameById typeId))
        else
          match fieldType.kind with
          | TypeKind.any => some (Except.ok "any")
          | TypeKind.json => some (Except.ok "JsonType")
          | TypeKind.str => some (Except.ok "string")
          | TypeKind.boolean => some (Except.ok "boolean")
          | TypeKind.float => some (Except.ok "number")
          | TypeKind.id => some (Except.ok "string")
          | TypeKind.int => some (Except.ok "number")
          | TypeKind.number => some (Except.ok "number")
          | TypeKind.record _ =>
            match getFieldType fuel typeId types with
            | none => none
            | some (Except.error e) => some (Except.error e)
            | some (Except.ok s) => some (Except.ok ("Record<string, " ++ s ++ ">"))
          | TypeKind.unknown => some (Except.ok "unknown")
          | TypeKind.literal v => some (Except.ok (renderLiteral v))
          | TypeKind.nullable itemTypeId =>
            match getFieldType fuel itemTypeId types with
            | none => none
            | some (Except.error e) => some (Except.error e)
            | some (Except.ok s) => some (Except.ok (s ++ " | null | undefined"))
          | TypeKind.list itemTypeId =>
            match getFieldType fuel itemTypeId types with
            | none => none
            | some (Except.error e) => some (Except.error e)
            | some (Except.ok s) => some (Except.ok (s ++ "[]"))
          | TypeKind.union itemTypeIds =>
            match resolveMembers (fun i => getFieldType fuel i types) itemTypeIds with
            | none => none
            | some (Except.error e) => some (Except.error e)
            | some (Except.ok ss) => some (Except.ok (joinSep " | " ss))
          | TypeKind.intersect itemTypeIds =>
            match resolveMembers (fun i => getFieldType fuel i types) itemTypeIds with
            | none => none
            | some (Except.error e) => some (Except.error e)
            | some (Except.ok ss) => some (Except.ok (joinSep " & " ss))
          | TypeKind.object _ => some (Except.error "Unsupported field")
          | TypeKind.struct _ => some (Except.error "Unsupported field")

/-- The exported declaration template of `handleType` (source lines 125–129),
whitespace preserved from the template literal. -/
def exportDecl (typeName : String) (fileds : List String) : String :=
  "\n        export type " ++ typeName ++ " = \x7b\n          " ++
    joinSep ",  \n" fileds ++ "\n        \x7d\n        "

/-- The non-exported declaration template of `handleType` (source lines
132–135), using the synthetic id-derived name. -/
def localDecl (typeId : Nat) (fileds : List String) : String :=
  "type " ++ getTypeNameById typeId ++ " = \x7b\n        " ++
    joinSep ",  \n" fileds ++ "\n      \x7d\n      "

/-- Mirrors the field rendering inside `handleType` (source lines 110–114):
`key: <resolved type>` with the field's comment attached. -/
def renderField (fuel : Nat) (types : FormatTypes) (key : String) (field : FieldInfo) :
    Option (Except String String) :=
  match getFieldType fuel field.typeId types with
  | none => none
  | some (Except.error e) => some (Except.error e)
  | some (Except.ok t) =>
    some (Except.ok (attachComment (key ++ ": " ++ t) field.description field.deprecated))

/-- Mirrors the `Object.entries(formatType.fields).map(...)` traversal; a
thrown error aborts the traversal. -/
def renderFields (fuel : Nat) (types : FormatTypes) :
    List (String × FieldInfo) → Option (Except String (List String))
  | [] => some (Except.ok [])
  | (key, field) :: rest =>
    match renderField fuel types key field with
    | none => none
    | some (Except.error e) => some (Except.error e)
    | some (Except.ok s) =>
      match renderFields fuel types rest with
      | none => none
      | some (Except.error e) => some (Except.error e)
      | some (Except.ok ss) => some (Except.ok (s :: ss))

/-- The Object/Struct body of `handleType` (source lines 109–135), shared by
the two kinds. -/
def handleObjectLike (fuel : Nat) (types : FormatTypes) (exportSet : List String)
    (typeId : Nat) (t : FormatType) (fields : List (String × FieldInfo)) :
    Option (Except String (String × List String)) :=
  match renderFields fuel types fields with
  | none => none
  | some (Except.error e) => some (Except.error e)
  | some (Except.ok fileds) =>
    match getTypeName t with
    | some typeName =>
      if exportSet.contains typeName then
        some (Except.error ("Duplicate Object Type name: " ++ typeName))
      else
        some (Except.ok (exportDecl typeName fileds, typeName :: exportSet))
    | none =>
      some (Except.ok (localDecl typeId fileds, exportSet))

/-- Mirrors `handleType`: inline kinds contribute the empty string; an
Object/Struct renders its fields and then either registers its display name in
the export set (failing on a duplicate) or uses the synthetic id-derived name.
Returns the rendered declaration together with the updated export set. -/
def handleType (fuel : Nat) (types : FormatTypes) (exportSet : List String)
    (typeId : Nat) (t : FormatType) : Option (Except String (String × List String)) :=
  if isInlineType t then
    some (Except.ok ("", exportSet))
  else
    match t.kind with
    | TypeKind.object fields => handleObjectLike fuel types exportSet typeId t fields
    | TypeKind.struct fields => handleObjectLike fuel types exportSet typeId t fields
    | _ => some (Except.error "Unsupported type")

/-- Mirrors `handleTypes`: every registry entry is handled in iteration order,
threading the export set; the rendered declarations are collected in order. -/
def handleTypesAux (fuel : Nat) (types : FormatTypes) (exportSet : List String) :
    List (Nat × FormatType) → Option (Except String (List String × List String))
  | [] => some (Except.ok ([], exportSet))
  | (typeId, t) :: rest =>
    match handleType fuel types exportSet typeId t with
    | none => none
    | some (Except.error e) => some (Except.error e)
    | some (Except.ok (s, exportSet')) =>
      match handleTypesAux fuel types exportSet' rest with
      | none => none
      | some (Except.error e) => some (Except.error e)
      | some (Except.ok (ss, exportSetF)) => some (Except.ok (s :: ss, exportSetF))

/-- Modelled from the spec: an Endpoint leaf (`FormatApi`) carries the input
and output type ids plus optional description / deprecation notes. -/
structure FormatApi where
  inputTypeId : Nat
  outputTypeId : Nat
  description : Option String := none
  deprecated : Option String := none
deriving DecidableEq

/-- Modelled from the spec: the Endpoint Tree, an ordered mapping from key to
child node, each child being either an Endpoint leaf (`consApi`) or a nested
namespace (`consSub`). -/
inductive FormatEntries where
  | nil : FormatEntries
  | consApi (key : String) (a : FormatApi) (rest : FormatEntries) : FormatEntries
  | consSub (key : String) (children : FormatEntries) (rest : FormatEntries) : FormatEntries
deriving DecidableEq

/-- Mirrors `handleApi`: the callable signature built from the resolved input
and output types. -/
def handleApi (fuel : Nat) (api : FormatApi) (types : FormatTypes) :
    Option (Except String String) :=
  match getFieldType fuel api.inputTypeId types with
  | none => none
  | some (Except.error e) => some (Except.error e)
  | some (Except.ok inputType) =>
    match getFieldType fuel api.outputTypeId types with
    | none => none
    | some (Except.error e) => some (Except.error e)
    | some (Except.ok outputType) =>
      some (Except.ok ("(input: " ++ inputType ++ ") => Promise<" ++ outputType ++ ">"))

/-- The braced structural-type template of `handleEntries` (source lines
163–167). -/
def wrapEntries (fields : List String) : String :=
  "\n    \x7b\n      " ++ joinSep ",\n" fields ++ "\n    \x7d\n    "

/-- Mirrors the `Object.entries(entries.entries).map(...)` body of
`handleEntries`: an Api leaf becomes a commented callable field, a nested
namespace recurses and is wrapped in the braced template. -/
def renderEntryFields (fuel : Nat) (types : FormatTypes) :
    FormatEntries → Option (Except String (List String))
  | FormatEntries.nil => some (Except.ok [])
  | FormatEntries.consApi key a rest =>
    match handleApi fuel a types with
    | none => none
    | some (Except.error e) => some (Except.error e)
    | some (Except.ok s) =>
      match renderEntryFields fuel types rest with
      | none => none
      | some (Except.error e) => some (Except.error e)
      | some (Except.ok ss) =>
        some (Except.ok (attachComment (key ++ ": " ++ s) a.description a.deprecated :: ss))
  | FormatEntries.consSub key children rest =>
    match renderEntryFields fuel types children with
    | none => none
    | some (Except.error e) => some (Except.error e)
    | some (Except.ok inner) =>
      match renderEntryFields fuel types rest with
      | none => none
      | some (Except.error e) => some (Except.error e)
      | some (Except.ok ss) =>
        some (Except.ok ((key ++ ": " ++ wrapEntries inner) :: ss))

/-- Mirrors `handleEntries` (source lines 155–168): the rendered children
joined and wrapped in the braced structural-type template. -/
def handleEntries (fuel : Nat) (types : FormatTypes) (es : FormatEntries) :
    Option (Except String String) :=
  match renderEntryFields fuel types es with
  | none => none
  | some (Except.error err) => some (Except.error err)
  | some (Except.ok fields) => some (Except.ok (wrapEntries fields))

/-- Mirrors the `FormatResult` input: the Type Registry plus the Endpoint
Tree. -/
structure FormatResult where
  types : FormatTypes
  entries : FormatEntries

/-- Mirrors line 174: whether any registry descriptor has kind `JSON`. -/
def hasJsonType (types : FormatTypes) : Bool :=
  types.any (fun p =>
    match p.2.kind with
    | TypeKind.json => true
    | _ => false)

/-- The shared JSON-compatible alias block (source lines 176–190), whitespace
preserved from the template literal. -/
def sourceOfJsonType : String :=
  "\n  type JsonType =\n    | number\n    | string\n    | boolean\n    | null\n    | undefined\n    | JsonType[]\n    | \x7b\n        toJSON(): string\n      \x7d\n    | \x7b\n        [key: string]: JsonType\n      \x7d\n  "

/-- The top-level assembly template of `codegen` (source lines 192–198): the
optional JSON alias slot, the joined declarations, and the aggregate `__API__`
declaration, as the list of its seven concatenated pieces. -/
def sourceSegments (json defs ents : String) : List String :=
  ["\n    ", json, "\n\n    ", defs, "\n\n    export type __API__ = ", ents, "\n  "]

/-- Concatenation of all segments. -/
def joinAll : List String → String
  | [] => ""
  | s :: rest => s ++ joinAll rest

/-- Mirrors `codegen`: render all declarations (threading a fresh export set),
render the endpoint tree, and assemble the final source.  The external
pretty-printing collaborator is out of scope per the spec; the assembled source
handed to it is returned. -/
def codegen (fuel : Nat) (r : FormatResult) : Option (Except String String) :=
  match handleTypesAux fuel r.types [] r.types with
  | none => none
  | some (Except.error e) => some (Except.error e)
  | some (Except.ok (definitions, _)) =>
    match handleEntries fuel r.types r.entries with
    | none => none
    | some (Except.error e) => some (Except.error e)
    | some (Except.ok ents) =>
      some (Except.ok (joinAll (sourceSegments
        (if hasJsonType r.types then sourceOfJsonType else "")
        (joinSep "\n\n" definitions) ents)))

/-- Decidable equality for `Except` results, used to evaluate concrete runs. -/
instance {ε α : Type} [DecidableEq ε] [DecidableEq α] : DecidableEq (Except ε α) := fun x y =>
  match x, y with
  | Except.error a, Except.error b => decidable_of_iff (a = b) (by simp)
  | Except.error _, Except.ok _ => isFalse (by simp)
  | Except.ok _, Except.error _ => isFalse (by simp)
  | Except.ok a, Except.ok b => decidable_of_iff (a = b) (by simp)

/-- Applies `f` to the payload of a normal return, passing errors and fuel
exhaustion through. -/
def mapOk (f : String → String) : Option (Except String String) → Option (Except String String)
  | none => none
  | some (Except.error e) => some (Except.error e)
  | some (Except.ok s) => some (Except.ok (f s))

/-- Whether a run produced a normal output string. -/
def isOkResult : Option (Except String String) → Bool
  | some (Except.ok _) => true
  | _ => false

/-- The output string of a normal run (empty for errors or fuel exhaustion). -/
def extractOk : Option (Except String String) → String
  | some (Except.ok s) => s
  | _ => ""

/-- Number of positions of `s` at which `pat` occurs as a substring. -/
def substrCountAux (pat : List Char) : List Char → Nat
  | [] => 0
  | c :: rest => (if pat.isPrefixOf (c :: rest) then 1 else 0) + substrCountAux pat rest

/-- Number of positions of `s` at which `pat` occurs as a substring. -/
def substrCount (pat s : String) : Nat :=
  substrCountAux pat.data s.data

/-- Whether a descriptor is of the Object or Struct kind. -/
def isObjectLike (t : FormatType) : Bool :=
  match t.kind with
  | TypeKind.object _ => true
  | TypeKind.struct _ => true
  | _ => false

/-- The fixed atomic-primitive spelling table exactly as the specification
states it (`Any→any`, `JSON→JsonType`, `String→string`, `Boolean→boolean`,
`Float→number`, `Int→number`, `Number→number`, `ID→string`,
`Unknown→unknown`); `none` for non-atomic kinds.  Stated from the spec's
words, to be compared against `getFieldType`. -/
def specAtomicSpelling : TypeKind → Option String
  | TypeKind.any => some "any"
  | TypeKind.json => some "JsonType"
  | TypeKind.str => some "string"
  | TypeKind.boolean => some "boolean"
  | TypeKind.float => some "number"
  | TypeKind.int => some "number"
  | TypeKind.number => some "number"
  | TypeKind.id => some "string"
  | TypeKind.unknown => some "unknown"
  | _ => none

/-- A registry whose id 1 is an unnamed `Record` with item type id 2, the item
being an unnamed `String`. -/
def recordSelfTypes : FormatTypes :=
  [(1, { kind := TypeKind.record 2 }), (2, { kind := TypeKind.str })]

/-- A registry rendering `List{List{String}}`: id 1 is a `List` of id 2, which
is a `List` of the `String` at id 0. -/
def nestedListTypes : FormatTypes :=
  [(0, { kind := TypeKind.str }), (2, { kind := TypeKind.list 0 }),
   (1, { kind := TypeKind.list 2 })]

/-- A registry with three unnamed atomic entries and an unnamed `Union` at id 0
whose member order `[2, 1, 3]` is not the registry order. -/
def permutedUnionTypes : FormatTypes :=
  [(0, { kind := TypeKind.union [2, 1, 3] }), (1, { kind := TypeKind.str }),
   (2, { kind := TypeKind.boolean }), (3, { kind := TypeKind.int })]

/-- C1: resolving an unnamed `Record` descriptor.  The source (line 70) passes
the record's own `typeId` — not its `itemTypeId` — to the recursive call, so on
the registry `{1 ↦ Record{itemTypeId: 2}, 2 ↦ String}` the resolution of id 1
exhausts every finite call depth (a stack overflow in TypeScript) instead of
producing `Record<string, string>` as the specification states. -/
theorem record_resolution_diverges :
    ∀ fuel : Nat, getFieldType fuel 1 recordSelfTypes = none := by
  intro fuel
  induction fuel with
  | zero => rfl
  | succ n ih =>
    simp only [recordSelfTypes] at ih
    simp [getFieldType, recordSelfTypes, lookupType, getTypeName, isInlineType, ih]

/-- C6: a descriptor that carries a display name resolves to that name itself,
whatever its kind and whatever else the registry contains. -/
theorem resolve_returns_display_name (fuel typeId : Nat) (types : FormatTypes)
    (t : FormatType) (n : String)
    (hl : lookupType types typeId = some t)
    (hn : getTypeName t = some n) :
    getFieldType (fuel + 1) typeId types = some (Except.ok n) := by
  simp [getFieldType, hl, hn]

/-- Witness for C6: a named `List` whose item id 9 is not even bound resolves
to its display name, with no inline expansion. -/
theorem resolve_returns_display_name_witness :
    getFieldType 1 5 [(5, { kind := TypeKind.list 9, name := some "Foo" })]
      = some (Except.ok "Foo") :=
  resolve_returns_display_name 0 5 _ _ _ rfl rfl

/-- C7: an unnamed atomic descriptor resolves to exactly the fixed spelling of
the specification's table, independently of every other registry entry. -/
theorem atomic_resolution_matches_spec_table (fuel typeId : Nat) (types : FormatTypes)
    (t : FormatType) (s : String)
    (hl : lookupType types typeId = some t)
    (hn : getTypeName t = none)
    (hs : specAtomicSpelling t.kind = some s) :
    getFieldType (fuel + 1) typeId types = some (Except.ok s) := by
  obtain ⟨k, nm⟩ := t
  cases k <;> simp_all [specAtomicSpelling, getFieldType, isInlineType]

/-- Witness for C7: an unnamed `Float` entry resolves to `number` in a registry
that also binds other ids. -/
theorem atomic_resolution_matches_spec_table_witness :
    getFieldType 1 2 [(1, { kind := TypeKind.str }), (2, { kind := TypeKind.float })]
      = some (Except.ok "number") :=
  atomic_resolution_matches_spec_table 0 2 _ _ _ rfl rfl rfl

/-- C8: an unnamed `List` descriptor resolves to the item's resolution followed
by the array suffix `[]`, and the nested `List{List{String}}` registry
resolves to `string[][]`. -/
theorem list_resolution_appends_array_suffix (fuel typeId itemTypeId : Nat)
    (types : FormatTypes) (t : FormatType)
    (hl : lookupType types typeId = some t)
    (hk : t.kind = TypeKind.list itemTypeId)
    (hn : getTypeName t = none) :
    getFieldType (fuel + 1) typeId types
      = mapOk (fun s => s ++ "[]") (getFieldType fuel itemTypeId types)
    ∧ getFieldType 3 1 nestedListTypes = some (Except.ok "string[][]") := by
  refine ⟨?_, by rfl⟩
  obtain ⟨k, nm⟩ := t
  cases hk
  simp only [getFieldType, hl, hn, isInlineType]
  cases hres : getFieldType fuel itemTypeId types with
  | none => simp [hres, mapOk]
  | some x => cases x <;> simp [hres, mapOk]

/-- Witness for C8: applying the suffix law on the nested-list registry at
id 2 (`List{String}`) yields `string[]`, together with the concrete double
suffix. -/
theorem list_resolution_appends_array_suffix_witness :
    getFieldType 2 2 nestedListTypes
        = mapOk (fun s => s ++ "[]") (getFieldType 1 0 nestedListTypes)
    ∧ getFieldType 3 1 nestedListTypes = some (Except.ok "string[][]") :=
  list_resolution_appends_array_suffix 1 2 0 nestedListTypes _ rfl rfl rfl

/-- Member-wise resolution lemma: if each member id resolves to the
corresponding string, the `.map` traversal returns exactly that list. -/
lemma resolveMembers_of_forall₂ (f : Nat → Option (Except String String))
    (ids : List Nat) (ss : List String)
    (h : List.Forall₂ (fun i s => f i = some (Except.ok s)) ids ss) :
    resolveMembers f ids = some (Except.ok ss) := by
  induction h with
  | nil => rfl
  | cons ha _ ih => simp [resolveMembers, ha, ih]

/-- C4: an unnamed `Union` descriptor resolves to its members' resolutions
joined by the union separator in exactly the input order of `itemTypeIds`,
for every list of member ids (hence for every permutation of a member set). -/
theorem union_resolution_preserves_member_order (fuel typeId : Nat)
    (types : FormatTypes) (t : FormatType) (ids : List Nat) (ss : List String)
    (hl : lookupType types typeId = some t)
    (hk : t.kind = TypeKind.union ids)
    (hn : getTypeName t = none)
    (hres : List.Forall₂ (fun i s => getFieldType fuel i types = some (Except.ok s)) ids ss) :
    getFieldType (fuel + 1) typeId types = some (Except.ok (joinSep " | " ss)) := by
  obtain ⟨k, nm⟩ := t
  cases hk
  simp [getFieldType, hl, hn, isInlineType,
    resolveMembers_of_forall₂ (fun i => getFieldType fuel i types) ids ss hres]

/-- Witness for C4: member ids `[2, 1, 3]` (not the registry order) render as
`boolean | string | number`, following the input order verbatim. -/
theorem union_resolution_preserves_member_order_witness :
    getFieldType 2 0 permutedUnionTypes
      = some (Except.ok (joinSep " | " ["boolean", "string", "number"])) :=
  union_resolution_preserves_member_order 1 0 permutedUnionTypes _ [2, 1, 3]
    ["boolean", "string", "number"] rfl rfl rfl
    (List.Forall₂.cons rfl (List.Forall₂.cons rfl (List.Forall₂.cons rfl List.Forall₂.nil)))

/-- C9: an Endpoint leaf renders as the callable signature
`(input: I) => Promise<O>` built from the resolved input and output types, and
the entry renderer emits it under its key with the endpoint's own
description/deprecation comment attached. -/
theorem api_leaf_renders_callable_signature (fuel : Nat) (types : FormatTypes)
    (a : FormatApi) (key inS outS : String) (rest : FormatEntries)
    (restFields : List String)
    (hin : getFieldType fuel a.inputTypeId types = some (Except.ok inS))
    (hout : getFieldType fuel a.outputTypeId types = some (Except.ok outS))
    (hrest : renderEntryFields fuel types rest = some (Except.ok restFields)) :
    handleApi fuel a types
      = some (Except.ok ("(input: " ++ inS ++ ") => Promise<" ++ outS ++ ">"))
    ∧ renderEntryFields fuel types (FormatEntries.consApi key a rest)
      = some (Except.ok (attachComment
          (key ++ ": " ++ ("(input: " ++ inS ++ ") => Promise<" ++ outS ++ ">"))
          a.description a.deprecated :: restFields)) := by
  constructor
  · simp [handleApi, hin, hout]
  · simp [renderEntryFields, handleApi, hin, hout, hrest]

/-- Witness for C9: the spec's `ping` scenario — input and output type id 1
(`String`) render as `ping: (input: string) => Promise<string>`. -/
theorem api_leaf_renders_callable_signature_witness :
    handleApi 1 { inputTypeId := 1, outputTypeId := 1 } [(1, { kind := TypeKind.str })]
      = some (Except.ok ("(input: " ++ "string" ++ ") => Promise<" ++ "string" ++ ">"))
    ∧ renderEntryFields 1 [(1, { kind := TypeKind.str })]
        (FormatEntries.consApi "ping" { inputTypeId := 1, outputTypeId := 1 } FormatEntries.nil)
      = some (Except.ok (attachComment
          ("ping" ++ ": " ++ ("(input: " ++ "string" ++ ") => Promise<" ++ "string" ++ ">"))
          none none :: [])) :=
  api_leaf_renders_callable_signature 1 [(1, { kind := TypeKind.str })]
    { inputTypeId := 1, outputTypeId := 1 } "ping" "string" "string"
    FormatEntries.nil [] rfl rfl rfl

/-- An inline descriptor is handled as the empty declaration, with the export
set untouched. -/
lemma handleType_inline {fuel : Nat} {types : FormatTypes} {exportSet : List String}
    {typeId : Nat} {t : FormatType} (hi : isInlineType t = true) :
    handleType fuel types exportSet typeId t = some (Except.ok ("", exportSet)) := by
  unfold handleType
  rw [if_pos hi]

/-- A non-inline descriptor is an Object or Struct, and `handleType` on it is
`handleObjectLike` on its fields. -/
lemma handleType_objectLike {fuel : Nat} {types : FormatTypes} {exportSet : List String}
    {typeId : Nat} {t : FormatType} (hi : isInlineType t = false) :
    ∃ fields, (t.kind = TypeKind.object fields ∨ t.kind = TypeKind.struct fields) ∧
      handleType fuel types exportSet typeId t
        = handleObjectLike fuel types exportSet typeId t fields := by
  obtain ⟨k, nm⟩ := t
  rcases k with _ | _ | _ | _ | _ | _ | _ | _ | _ | i | v | i | i | ids | ids | fields | fields
    <;> try simp [isInlineType] at hi
  · exact ⟨fields, Or.inl rfl, by unfold handleType; rw [if_neg (by simp [isInlineType])]⟩
  · exact ⟨fields, Or.inr rfl, by unfold handleType; rw [if_neg (by simp [isInlineType])]⟩

/-- Case analysis of a successful `handleObjectLike` run: the export set either
gained exactly the (fresh) display name, or is unchanged because the descriptor
has no display name. -/
lemma handleObjectLike_ok_cases {fuel : Nat} {types : FormatTypes}
    {exportSet : List String} {typeId : Nat} {t : FormatType}
    {fields : List (String × FieldInfo)} {s : String} {exportSet' : List String} :
    handleObjectLike fuel types exportSet typeId t fields
      = some (Except.ok (s, exportSet')) →
    (∃ n, getTypeName t = some n ∧ n ∉ exportSet ∧ exportSet' = n :: exportSet) ∨
    (getTypeName t = none ∧ exportSet' = exportSet) := by
  intro h
  unfold handleObjectLike at h
  cases hr : renderFields fuel types fields with
  | none => rw [hr] at h; simp at h
  | some res =>
    cases res with
    | error e => rw [hr] at h; simp at h
    | ok fs =>
      rw [hr] at h
      cases hn : getTypeName t with
      | some n =>
        rw [hn] at h
        by_cases hc : n ∈ exportSet
        · simp [hc] at h
        · simp [hc] at h
          exact Or.inl ⟨n, rfl, hc, h.2.symm⟩
      | none =>
        rw [hn] at h
        simp at h
        exact Or.inr ⟨rfl, h.2.symm⟩

/-- Case analysis of a successful `handleType` run: the export set either
gained exactly the (fresh) display name of an Object/Struct, or is
unchanged. -/
lemma handleType_ok_cases {fuel : Nat} {types : FormatTypes}
    {exportSet : List String} {typeId : Nat} {t : FormatType}
    {s : String} {exportSet' : List String}
    (h : handleType fuel types exportSet typeId t = some (Except.ok (s, exportSet'))) :
    (∃ n, getTypeName t = some n ∧ n ∉ exportSet ∧ exportSet' = n :: exportSet) ∨
    exportSet' = exportSet := by
  by_cases hi : isInlineType t = true
  · rw [handleType_inline hi] at h
    simp at h
    exact Or.inr h.2.symm
  · obtain ⟨fields, -, heq⟩ := handleType_objectLike (t := t) (by simpa using hi)
    rw [heq] at h
    rcases handleObjectLike_ok_cases h with ⟨n, hn, hc, hset⟩ | ⟨-, hset⟩
    · exact Or.inl ⟨n, hn, hc, hset⟩
    · exact Or.inr hset

/-- A successful `handleType` run never removes a name from the export set. -/
lemma handleType_mem_mono {fuel : Nat} {types : FormatTypes}
    {exportSet : List String} {typeId : Nat} {t : FormatType}
    {s : String} {exportSet' : List String}
    (h : handleType fuel types exportSet typeId t = some (Except.ok (s, exportSet')))
    {m : String} (hm : m ∈ exportSet) : m ∈ exportSet' := by
  rcases handleType_ok_cases h with ⟨n, -, -, hset⟩ | hset
  · exact hset ▸ List.mem_cons_of_mem n hm
  · exact hset ▸ hm

/-- An Object/Struct descriptor whose display name is already in the export set
is never handled successfully: `handleType` throws the duplicate-name error (or
an earlier field-rendering error). -/
lemma handleType_named_rejects {fuel : Nat} {types : FormatTypes}
    {exportSet : List String} {typeId : Nat} {t : FormatType} {n : String}
    (hobj : isObjectLike t = true) (hname : getTypeName t = some n)
    (hmem : n ∈ exportSet) {s : String} {exportSet' : List String} :
    handleType fuel types exportSet typeId t ≠ some (Except.ok (s, exportSet')) := by
  intro h
  have hi : isInlineType t = false := by
    obtain ⟨k, nm⟩ := t
    cases k <;> simp_all [isObjectLike, isInlineType]
  obtain ⟨fields, -, heq⟩ := handleType_objectLike (t := t) hi
  rw [heq] at h
  rcases handleObjectLike_ok_cases h with ⟨n', hn', hc, -⟩ | ⟨hn', -⟩
  · rw [hname] at hn'
    cases hn'
    exact hc hmem
  · rw [hname] at hn'
    cases hn'

/-- A successful `handleType` run on a named Object/Struct registers exactly
the display name. -/
lemma handleType_named_adds {fuel : Nat} {types : FormatTypes}
    {exportSet : List String} {typeId : Nat} {t : FormatType} {n : String}
    (hobj : isObjectLike t = true) (hname : getTypeName t = some n)
    {s : String} {exportSet' : List String}
    (h : handleType fuel types exportSet typeId t = some (Except.ok (s, exportSet'))) :
    exportSet' = n :: exportSet := by
  have hi : isInlineType t = false := by
    obtain ⟨k, nm⟩ := t
    cases k <;> simp_all [isObjectLike, isInlineType]
  obtain ⟨fields, -, heq⟩ := handleType_objectLike (t := t) hi
  rw [heq] at h
  rcases handleObjectLike_ok_cases h with ⟨n', hn', -, hset⟩ | ⟨hn', -⟩
  · rw [hname] at hn'
    cases hn'
    exact hset
  · rw [hname] at hn'
    cases hn'


/-- The declaration fold can never succeed on a suffix of the registry that
still contains an Object/Struct descriptor whose display name is already in
the export set. -/
lemma handleTypesAux_fails_of_mem_name (fuel : Nat) (types : FormatTypes) :
    ∀ (l : List (Nat × FormatType)) (exportSet : List String) (j : Nat)
      (tj : FormatType) (n : String),
    (j, tj) ∈ l → isObjectLike tj = true → getTypeName tj = some n →
    n ∈ exportSet →
    ∀ out, handleTypesAux fuel types exportSet l ≠ some (Except.ok out) := by
  intro l
  induction l with
  | nil =>
    intro exportSet j tj n hmem
    exact absurd hmem (List.not_mem_nil (j, tj))
  | cons hd rest ih =>
    intro exportSet j tj n hmem hobj hname hns out h
    obtain ⟨hdId, hdT⟩ := hd
    unfold handleTypesAux at h
    cases hh : handleType fuel types exportSet hdId hdT with
    | none => simp only [hh] at h; exact absurd h (by simp)
    | some res =>
      cases res with
      | error e => simp only [hh] at h; exact absurd h (by simp)
      | ok pair =>
        obtain ⟨s, exportSet₂⟩ := pair
        simp only [hh] at h
        rcases List.mem_cons.mp hmem with hhd | htail
        · have h2 : tj = hdT := congrArg Prod.snd hhd
          subst h2
          exact handleType_named_rejects hobj hname hns hh
        · cases ha : handleTypesAux fuel types exportSet₂ rest with
          | none => simp only [ha] at h; exact absurd h (by simp)
          | some res₂ =>
            cases res₂ with
            | error e => simp only [ha] at h; exact absurd h (by simp)
            | ok out₂ =>
              exact ih exportSet₂ j tj n htail hobj hname
                (handleType_mem_mono hh hns) out₂ ha

/-- Splitting the declaration fold over an append: success on `xs ++ ys` yields
success on `xs` and, from the intermediate export set, success on `ys`. -/
lemma handleTypesAux_append_ok (fuel : Nat) (types : FormatTypes) :
    ∀ (xs ys : List (Nat × FormatType)) (exportSet : List String)
      (outs : List String) (outSet : List String),
    handleTypesAux fuel types exportSet (xs ++ ys) = some (Except.ok (outs, outSet)) →
    ∃ os₁ set₁ os₂,
      handleTypesAux fuel types exportSet xs = some (Except.ok (os₁, set₁)) ∧
      handleTypesAux fuel types set₁ ys = some (Except.ok (os₂, outSet)) := by
  intro xs
  induction xs with
  | nil =>
    intro ys exportSet outs outSet h
    exact ⟨[], exportSet, outs, rfl, h⟩
  | cons hd rest ih =>
    intro ys exportSet outs outSet h
    obtain ⟨hdId, hdT⟩ := hd
    rw [List.cons_append] at h
    unfold handleTypesAux at h
    cases hh : handleType fuel types exportSet hdId hdT with
    | none => simp only [hh] at h; exact absurd h (by simp)
    | some res =>
      cases res with
      | error e => simp only [hh] at h; exact absurd h (by simp)
      | ok pair =>
        obtain ⟨s, exportSet₂⟩ := pair
        simp only [hh] at h
        cases ha : handleTypesAux fuel types exportSet₂ (rest ++ ys) with
        | none => simp only [ha] at h; exact absurd h (by simp)
        | some res₂ =>
          cases res₂ with
          | error e => simp only [ha] at h; exact absurd h (by simp)
          | ok out₂ =>
            obtain ⟨os, setF⟩ := out₂
            simp only [ha, Option.some.injEq, Except.ok.injEq, Prod.mk.injEq] at h
            obtain ⟨os₁, set₁, os₂, h1, h2⟩ := ih ys exportSet₂ os setF ha
            refine ⟨s :: os₁, set₁, os₂, ?_, ?_⟩
            · unfold handleTypesAux
              simp only [hh, h1]
            · rw [h2, h.2]

/-- A registry with two Object descriptors both named `Foo`. -/
def dupNameInput : FormatResult :=
  { types := [(0, { kind := TypeKind.object [], name := some "Foo" }),
              (1, { kind := TypeKind.object [], name := some "Foo" })],
    entries := FormatEntries.nil }

/-- When the declaration fold cannot succeed, `codegen` produces no output
string. -/
lemma codegen_not_ok_of_types_fail {fuel : Nat} {r : FormatResult}
    (h : ∀ out, handleTypesAux fuel r.types [] r.types ≠ some (Except.ok out)) :
    isOkResult (codegen fuel r) = false := by
  unfold codegen
  cases ha : handleTypesAux fuel r.types [] r.types with
  | none => rfl
  | some res =>
    cases res with
    | error e => rfl
    | ok out => exact absurd ha (h out)

/-- C2: if two Object/Struct descriptors in the registry carry the same display
name, the generation call never returns an output string — and on the spec's
two-`Foo` example the failure is the duplicate-name error. -/
theorem duplicate_display_name_aborts_generation
    (fuel : Nat) (r : FormatResult) (i j : Nat) (ti tj : FormatType) (n : String)
    (l₁ l₂ : List (Nat × FormatType))
    (hsplit : r.types = l₁ ++ (i, ti) :: l₂)
    (hmem : (j, tj) ∈ l₂)
    (hti : isObjectLike ti = true) (htj : isObjectLike tj = true)
    (hni : getTypeName ti = some n) (hnj : getTypeName tj = some n) :
    isOkResult (codegen fuel r) = false
    ∧ codegen 2 dupNameInput = some (Except.error "Duplicate Object Type name: Foo") := by
  refine ⟨?_, by rfl⟩
  apply codegen_not_ok_of_types_fail
  intro out h
  rw [hsplit] at h
  obtain ⟨outs, outSet⟩ := out
  obtain ⟨os₁, set₁, os₂, h1, h2⟩ :=
    handleTypesAux_append_ok fuel (l₁ ++ (i, ti) :: l₂) l₁ ((i, ti) :: l₂) [] outs outSet h
  unfold handleTypesAux at h2
  cases hh : handleType fuel (l₁ ++ (i, ti) :: l₂) set₁ i ti with
  | none => simp only [hh] at h2; exact absurd h2 (by simp)
  | some res =>
    cases res with
    | error e => simp only [hh] at h2; exact absurd h2 (by simp)
    | ok pair =>
      obtain ⟨s, set₂⟩ := pair
      simp only [hh] at h2
      have hset₂ : set₂ = n :: set₁ := handleType_named_adds hti hni hh
      cases ha : handleTypesAux fuel (l₁ ++ (i, ti) :: l₂) set₂ l₂ with
      | none => simp only [ha] at h2; exact absurd h2 (by simp)
      | some res₂ =>
        cases res₂ with
        | error e => simp only [ha] at h2; exact absurd h2 (by simp)
        | ok out₂ =>
          exact handleTypesAux_fails_of_mem_name fuel (l₁ ++ (i, ti) :: l₂) l₂ set₂ j tj n
            hmem htj hnj (hset₂ ▸ List.mem_cons_self n set₁) out₂ ha

/-- Witness for C2: the two-`Foo` registry is rejected at every stage. -/
theorem duplicate_display_name_aborts_generation_witness :
    isOkResult (codegen 3 dupNameInput) = false
    ∧ codegen 2 dupNameInput = some (Except.error "Duplicate Object Type name: Foo") :=
  duplicate_display_name_aborts_generation 3 dupNameInput 0 1
    { kind := TypeKind.object [], name := some "Foo" }
    { kind := TypeKind.object [], name := some "Foo" } "Foo" []
    [(1, { kind := TypeKind.object [], name := some "Foo" })]
    rfl (by decide) rfl rfl rfl rfl

/-- A registry pairing an Object explicitly named `Type1` with an unnamed
Object at registry id 1, whose synthetic name is also `Type1`. -/
def collideInput : FormatResult :=
  { types := [(0, { kind := TypeKind.object [], name := some "Type1" }),
              (1, { kind := TypeKind.object [] })],
    entries := FormatEntries.nil }

set_option maxRecDepth 8000 in
/-- C10: the duplicate check covers only display names.  An unnamed
Object/Struct is emitted under its synthetic id-derived name without touching
the export set, so the registry pairing an Object named `Type1` with an
unnamed Object at id 1 generates successfully and its output declares
`type Type1 = {` twice. -/
theorem synthetic_names_bypass_duplicate_check :
    (∀ (fuel : Nat) (types : FormatTypes) (exportSet : List String) (typeId : Nat)
       (t : FormatType) (fields : List (String × FieldInfo)) (fs : List String),
       (t.kind = TypeKind.object fields ∨ t.kind = TypeKind.struct fields) →
       getTypeName t = none →
       renderFields fuel types fields = some (Except.ok fs) →
       handleType fuel types exportSet typeId t
         = some (Except.ok (localDecl typeId fs, exportSet)))
    ∧ isOkResult (codegen 2 collideInput) = true
    ∧ substrCount "type Type1 = \x7b" (extractOk (codegen 2 collideInput)) = 2 := by
  refine ⟨?_, by rfl, by rfl⟩
  intro fuel types exportSet typeId t fields fs hk hn hfs
  obtain ⟨k, nm⟩ := t
  rcases hk with hk | hk <;>
  · dsimp at hk
    cases hk
    unfold handleType
    rw [if_neg (by simp [isInlineType])]
    unfold handleObjectLike
    simp only [hfs, hn]

/-- Witness for C10: an unnamed Object handled against a non-empty export set
emits the synthetic declaration and leaves the set unchanged. -/
theorem synthetic_names_bypass_duplicate_check_witness :
    handleType 1 [] ["X"] 1 { kind := TypeKind.object [] }
      = some (Except.ok (localDecl 1 [], ["X"])) :=
  synthetic_names_bypass_duplicate_check.1 1 [] ["X"] 1
    { kind := TypeKind.object [] } [] [] (Or.inl rfl) rfl rfl

/-- A registry whose only entry is an unnamed `List` with the unbound item
id 99, referenced by nothing. -/
def danglingListInput : FormatResult :=
  { types := [(1, { kind := TypeKind.list 99 })], entries := FormatEntries.nil }

/-- Counterexample to C3 as stated: this input contains a descriptor
referencing the absent id 99, yet generation succeeds, because the dangling
`List` entry is inline and never resolved by the emitter. -/
theorem dangling_reference_generation_succeeds :
    lookupType danglingListInput.types 99 = none
    ∧ isOkResult (codegen 2 danglingListInput) = true := by
  constructor <;> rfl

/-- A registry where an exported Object field forces resolution of the
unnamed `List` whose item id 99 is unbound. -/
def referencedDanglingInput : FormatResult :=
  { types := [(0, { kind := TypeKind.object [("xs", { typeId := 1 })], name := some "Foo" }),
              (1, { kind := TypeKind.list 99 })],
    entries := FormatEntries.nil }

/-- C3 (amended): resolving a type id that is absent from the registry fails
with an unresolved-reference error, never a placeholder; in particular an
unnamed `List` with an unbound item id resolves to that error, and generation
fails whenever such a reference is actually resolved during emission — though
a dangling descriptor that is never resolved does not abort generation. -/
theorem unresolved_reference_fails_on_resolution
    (fuel typeId tid2 itemTypeId : Nat) (types : FormatTypes) (t : FormatType)
    (h : lookupType types typeId = none)
    (hl : lookupType types tid2 = some t)
    (hk : t.kind = TypeKind.list itemTypeId)
    (hn : getTypeName t = none)
    (hitem : lookupType types itemTypeId = none) :
    getFieldType (fuel + 1) typeId types
      = some (Except.error ("Unresolved type id: " ++ toString typeId))
    ∧ getFieldType (fuel + 2) tid2 types
      = some (Except.error ("Unresolved type id: " ++ toString itemTypeId))
    ∧ codegen 2 referencedDanglingInput = some (Except.error "Unresolved type id: 99") := by
  refine ⟨by simp [getFieldType, h], ?_, by rfl⟩
  obtain ⟨k, nm⟩ := t
  cases hk
  simp [getFieldType, hl, hn, isInlineType, hitem]

/-- Witness for the amended C3: on the dangling-list registry, resolving the
absent id 99 directly and resolving the `List` that references it both fail
with the unresolved-reference error. -/
theorem unresolved_reference_fails_on_resolution_witness :
    getFieldType 1 99 [(1, { kind := TypeKind.list 99 })]
      = some (Except.error ("Unresolved type id: " ++ toString 99))
    ∧ getFieldType 2 1 [(1, { kind := TypeKind.list 99 })]
      = some (Except.error ("Unresolved type id: " ++ toString 99))
    ∧ codegen 2 referencedDanglingInput = some (Except.error "Unresolved type id: 99") :=
  unresolved_reference_fails_on_resolution 0 99 1 99 [(1, { kind := TypeKind.list 99 })]
    { kind := TypeKind.list 99 } rfl rfl rfl rfl rfl

/-- A string extending `a` differs from `b` whenever they already differ within
the first `k` characters of `a`. -/
lemma append_ne_of_take_ne (a m b : String) (k : Nat)
    (hk : k ≤ a.data.length)
    (hne : a.data.take k ≠ b.data.take k) : a ++ m ≠ b := by
  intro h
  apply hne
  rw [← h, String.data_append, List.take_append_of_le_length hk]

/-- No braced entries block equals the JSON alias block (they differ at the
fourth character). -/
lemma wrapEntries_ne_alias (fields : List String) :
    wrapEntries fields ≠ sourceOfJsonType := by
  unfold wrapEntries
  rw [String.append_assoc]
  exact append_ne_of_take_ne _ _ _ 4 (by decide) (by decide)

/-- The folding of the two literal pieces of the synthetic declaration
header. -/
lemma type_lit_merge (t : String) :
    ("type " : String) ++ ("Type" ++ t) = "type Type" ++ t := by
  apply String.ext
  simp only [String.data_append]
  rw [← List.append_assoc]
  congr 1

/-- An exported declaration starts with the export header. -/
lemma exportDecl_shape (n : String) (fs : List String) :
    ∃ m, exportDecl n fs = "\n        export type " ++ m := by
  refine ⟨n ++ (" = \x7b\n          " ++ (joinSep ",  \n" fs ++ "\n        \x7d\n        ")), ?_⟩
  unfold exportDecl
  simp [String.append_assoc]

/-- A synthetic declaration starts with the synthetic header. -/
lemma localDecl_shape (typeId : Nat) (fs : List String) :
    ∃ m, localDecl typeId fs = "type Type" ++ m := by
  refine ⟨toString typeId ++ (" = \x7b\n        " ++ (joinSep ",  \n" fs ++ "\n      \x7d\n      ")), ?_⟩
  unfold localDecl getTypeNameById
  rw [type_lit_merge]
  simp [String.append_assoc]

/-- Every declaration emitted by `handleType` is empty, an exported
declaration, or a synthetic declaration. -/
lemma handleType_ok_shape {fuel : Nat} {types : FormatTypes}
    {exportSet : List String} {typeId : Nat} {t : FormatType}
    {s : String} {exportSet' : List String}
    (h : handleType fuel types exportSet typeId t = some (Except.ok (s, exportSet'))) :
    s = "" ∨ (∃ m, s = "\n        export type " ++ m) ∨ (∃ m, s = "type Type" ++ m) := by
  by_cases hi : isInlineType t = true
  · rw [handleType_inline hi] at h
    simp at h
    exact Or.inl h.1.symm
  · obtain ⟨fields, -, heq⟩ := handleType_objectLike (t := t) (by simpa using hi)
    rw [heq] at h
    unfold handleObjectLike at h
    cases hr : renderFields fuel types fields with
    | none => simp only [hr] at h; exact absurd h (by simp)
    | some res =>
      cases res with
      | error e => simp only [hr] at h; exact absurd h (by simp)
      | ok fs =>
        simp only [hr] at h
        cases hn : getTypeName t with
        | some n =>
          simp only [hn] at h
          by_cases hc : exportSet.contains n = true
          · rw [if_pos hc] at h
            exact absurd h (by simp)
          · rw [if_neg hc] at h
            simp only [Option.some.injEq, Except.ok.injEq, Prod.mk.injEq] at h
            obtain ⟨m, hm⟩ := exportDecl_shape n fs
            exact Or.inr (Or.inl ⟨m, by rw [← h.1, hm]⟩)
        | none =>
          simp only [hn, Option.some.injEq, Except.ok.injEq, Prod.mk.injEq] at h
          obtain ⟨m, hm⟩ := localDecl_shape typeId fs
          exact Or.inr (Or.inr ⟨m, by rw [← h.1, hm]⟩)

/-- Every declaration collected by the fold has the `handleType` shape. -/
lemma handleTypesAux_ok_shape (fuel : Nat) (types : FormatTypes) :
    ∀ (l : List (Nat × FormatType)) (exportSet outs outSet : List String),
    handleTypesAux fuel types exportSet l = some (Except.ok (outs, outSet)) →
    ∀ s ∈ outs,
      s = "" ∨ (∃ m, s = "\n        export type " ++ m) ∨ (∃ m, s = "type Type" ++ m) := by
  intro l
  induction l with
  | nil =>
    intro exportSet outs outSet h s hs
    unfold handleTypesAux at h
    simp only [Option.some.injEq, Except.ok.injEq, Prod.mk.injEq] at h
    rw [← h.1] at hs
    exact absurd hs (List.not_mem_nil s)
  | cons hd rest ih =>
    intro exportSet outs outSet h s hs
    obtain ⟨hdId, hdT⟩ := hd
    unfold handleTypesAux at h
    cases hh : handleType fuel types exportSet hdId hdT with
    | none => simp only [hh] at h; exact absurd h (by simp)
    | some res =>
      cases res with
      | error e => simp only [hh] at h; exact absurd h (by simp)
      | ok pair =>
        obtain ⟨s₀, exportSet₂⟩ := pair
        simp only [hh] at h
        cases ha : handleTypesAux fuel types exportSet₂ rest with
        | none => simp only [ha] at h; exact absurd h (by simp)
        | some res₂ =>
          cases res₂ with
          | error e => simp only [ha] at h; exact absurd h (by simp)
          | ok out₂ =>
            obtain ⟨ss, setF⟩ := out₂
            simp only [ha, Option.some.injEq, Except.ok.injEq, Prod.mk.injEq] at h
            rw [← h.1] at hs
            rcases List.mem_cons.mp hs with hhead | htail
            · exact hhead ▸ handleType_ok_shape hh
            · exact ih exportSet₂ ss setF ha s htail

/-- The joined declaration text never equals the JSON alias block: each
possible head shape differs from the alias within its first characters. -/
lemma joinSep_shaped_ne_alias :
    ∀ l : List String,
    (∀ s ∈ l, s = "" ∨ (∃ m, s = "\n        export type " ++ m) ∨
      (∃ m, s = "type Type" ++ m)) →
    joinSep "\n\n" l ≠ sourceOfJsonType := by
  intro l hl
  match l with
  | [] =>
    intro h
    exact absurd h (by decide)
  | [p] =>
    show p ≠ sourceOfJsonType
    rcases hl p (by simp) with hp | ⟨m, hp⟩ | ⟨m, hp⟩
    · rw [hp]; decide
    · rw [hp]; exact append_ne_of_take_ne _ _ _ 4 (by decide) (by decide)
    · rw [hp]; exact append_ne_of_take_ne _ _ _ 1 (by decide) (by decide)
  | p :: q :: rest =>
    show p ++ "\n\n" ++ joinSep "\n\n" (q :: rest) ≠ sourceOfJsonType
    rcases hl p (by simp) with hp | ⟨m, hp⟩ | ⟨m, hp⟩
    · rw [hp, show (("" : String) ++ "\n\n") = "\n\n" from rfl]
      exact append_ne_of_take_ne _ _ _ 2 (by decide) (by decide)
    · rw [hp, String.append_assoc, String.append_assoc]
      exact append_ne_of_take_ne _ _ _ 4 (by decide) (by decide)
    · rw [hp, String.append_assoc, String.append_assoc]
      exact append_ne_of_take_ne _ _ _ 1 (by decide) (by decide)

/-- Every successful rendering of the endpoint tree is a braced entries
block. -/
lemma handleEntries_ok_shape {fuel : Nat} {types : FormatTypes}
    {es : FormatEntries} {s : String}
    (h : handleEntries fuel types es = some (Except.ok s)) :
    ∃ fields, s = wrapEntries fields := by
  unfold handleEntries at h
  cases hr : renderEntryFields fuel types es with
  | none => simp only [hr] at h; exact absurd h (by simp)
  | some res =>
    cases res with
    | error e => simp only [hr] at h; exact absurd h (by simp)
    | ok fields =>
      simp only [hr, Option.some.injEq, Except.ok.injEq] at h
      exact ⟨fields, h.symm⟩

/-- A registry with two JSON-kind entries and no endpoint. -/
def jsonAliasInput : FormatResult :=
  { types := [(0, { kind := TypeKind.json }), (1, { kind := TypeKind.json })],
    entries := FormatEntries.nil }

/-- C5: every successful generation assembles the fixed seven-segment template
in which the JSON alias block occupies its dedicated slot exactly when some
registry entry has kind `JSON`; among the assembled segments the alias block
occurs exactly once in that case and never otherwise, regardless of how many
JSON-kind entries exist. -/
theorem json_alias_emitted_once (fuel : Nat) (r : FormatResult) (out : String)
    (h : codegen fuel r = some (Except.ok out)) :
    ∃ defs ents,
      out = joinAll (sourceSegments
        (if hasJsonType r.types then sourceOfJsonType else "") defs ents)
      ∧ (sourceSegments (if hasJsonType r.types then sourceOfJsonType else "")
          defs ents).count sourceOfJsonType
        = (if hasJsonType r.types then 1 else 0) := by
  unfold codegen at h
  cases ha : handleTypesAux fuel r.types [] r.types with
  | none => simp only [ha] at h; exact absurd h (by simp)
  | some res =>
    cases res with
    | error e => simp only [ha] at h; exact absurd h (by simp)
    | ok pair =>
      obtain ⟨definitions, setF⟩ := pair
      simp only [ha] at h
      cases he : handleEntries fuel r.types r.entries with
      | none => simp only [he] at h; exact absurd h (by simp)
      | some res₂ =>
        cases res₂ with
        | error e => simp only [he] at h; exact absurd h (by simp)
        | ok ents =>
          simp only [he, Option.some.injEq, Except.ok.injEq] at h
          have hdefs : joinSep "\n\n" definitions ≠ sourceOfJsonType :=
            joinSep_shaped_ne_alias definitions
              (handleTypesAux_ok_shape fuel r.types r.types [] definitions setF ha)
          have hents : ents ≠ sourceOfJsonType := by
            obtain ⟨fields, hf⟩ := handleEntries_ok_shape he
            rw [hf]
            exact wrapEntries_ne_alias fields
          have g1 : ("\n    " : String) ≠ sourceOfJsonType := by decide
          have g2 : ("\n\n    " : String) ≠ sourceOfJsonType := by decide
          have g3 : ("\n\n    export type __API__ = " : String) ≠ sourceOfJsonType := by
            decide
          have g4 : ("\n  " : String) ≠ sourceOfJsonType := by decide
          have g5 : ("" : String) ≠ sourceOfJsonType := by decide
          refine ⟨joinSep "\n\n" definitions, ents, h.symm, ?_⟩
          by_cases hj : hasJsonType r.types
          · simp [hj, sourceSegments, List.count_cons, List.count_nil,
              g1, g2, g3, g4, hdefs, hents]
          · simp only [Bool.not_eq_true] at hj
            simp [hj, sourceSegments, List.count_cons, List.count_nil,
              g1, g2, g3, g4, g5, hdefs, hents]

set_option maxRecDepth 8000 in
/-- Witness for C5: the two-JSON registry assembles with the alias slot filled
and the alias counted exactly once among the segments. -/
theorem json_alias_emitted_once_witness :
    ∃ defs ents,
      extractOk (codegen 2 jsonAliasInput)
        = joinAll (sourceSegments
            (if hasJsonType jsonAliasInput.types then sourceOfJsonType else "") defs ents)
      ∧ (sourceSegments
            (if hasJsonType jsonAliasInput.types then sourceOfJsonType else "")
            defs ents).count sourceOfJsonType
        = (if hasJsonType jsonAliasInput.types then 1 else 0) :=
  json_alias_emitted_once 2 jsonAliasInput (extractOk (codegen 2 jsonAliasInput)) (by rfl)
